import Mathlib

/-!
Shallow embedding of the VyshCard Flask application (`src/main.py`), restricted
to the balance-transfer ledger engine: `commission_for_level`, `recalc_level`,
`api_transfer`, and the card-number generation path of `api_register`.

Modelling conventions:
* Monetary values are Python floats in the source.  They are embedded as exact
  rationals (`ℚ`): all arithmetic the transfer performs is modelled exactly,
  binary64 representation error is outside the model.  The non-finite float
  values that can reach the validation path (`float("nan")`, `float("inf")`,
  `float("-inf")`) are modelled explicitly by the `PyFloat` type, with Python's
  IEEE comparison semantics (every comparison with NaN is false) written out
  at their use sites.
* Accounts are keyed by username.  In the source the sender is fetched by
  primary key and the receiver by username; usernames carry a unique
  constraint and `api_register` refuses duplicates, so the two keyings agree.
  When sender and receiver resolve to the same row, SQLAlchemy's identity map
  hands back the same Python object, so the two balance mutations compose on
  one record; sequential updates of a keyed map have exactly this behaviour.
* Python's `round(x, 2)` rounds half to even; `pyRound2` implements that on
  the exact rational value.
* The database session commits only at the end of the handler; every early
  `return` (and the unhandled exception a NaN amount provokes at
  `int(amount // 50)`) leaves the committed state unchanged, so `api_transfer`
  returns the input state on every error path.
-/

namespace Vysh

/-- `START_BALANCE = 20.0` (src/main.py line 20). -/
def START_BALANCE : ℚ := 20

/-- `COMMISSION_SILVER = 0.02` (src/main.py line 22). -/
def COMMISSION_SILVER : ℚ := 2 / 100

/-- `COMMISSION_GOLD = 0.015` (src/main.py line 23). -/
def COMMISSION_GOLD : ℚ := 15 / 1000

/-- `COMMISSION_PLATINUM = 0.01` (src/main.py line 24). -/
def COMMISSION_PLATINUM : ℚ := 1 / 100

/-- A Python float value as it can appear in the transfer's `amount` after a
successful `float(...)` conversion: a finite value (modelled exactly as a
rational), NaN, or a signed infinity. -/
inductive PyFloat where
  | fin (q : ℚ)
  | nan
  | inf
  | ninf
deriving DecidableEq

/-- Python's `amount <= 0` on a float: false for NaN (IEEE comparisons with
NaN are false), false for `+inf`, true for `-inf`. -/
def pyLe0 : PyFloat → Bool
  | .fin q => decide (q ≤ 0)
  | .nan => false
  | .inf => false
  | .ninf => true

/-- Round half to even to an integer, as Python's builtin `round` does on the
exact value. -/
def roundHalfEven (q : ℚ) : ℤ :=
  let f := ⌊q⌋
  let r := q - f
  if r < 1 / 2 then f
  else if 1 / 2 < r then f + 1
  else if f % 2 = 0 then f else f + 1

/-- Python's `round(x, 2)` on the exact rational value. -/
def pyRound2 (q : ℚ) : ℚ := (roundHalfEven (q * 100) : ℚ) / 100

/-- `commission_for_level` (src/main.py lines 115-120).  The spec's
source-neutral tier names Base/Mid/Top stand for Silver/Gold/Platinum. -/
def commission_for_level (level : String) : ℚ :=
  if level = "Gold" then COMMISSION_GOLD
  else if level = "Platinum" then COMMISSION_PLATINUM
  else COMMISSION_SILVER

/-- `recalc_level` (src/main.py lines 123-130), as the pure map from a point
total to the stored level string. -/
def recalc_level (pts : ℤ) : String :=
  if pts ≥ 1000 then "Platinum"
  else if pts ≥ 200 then "Gold"
  else "Silver"

/-- The mutable per-user state the transfer touches: `balance`, `points`,
`level` columns of `users` (src/main.py lines 47-49). -/
structure Account where
  balance : ℚ
  points : ℤ
  level : String
deriving DecidableEq

/-- One `Transaction` row (src/main.py lines 68-77); the owning user and the
counterparty are identified by username (see the keying convention above). -/
structure Txn where
  user : String
  amount : ℚ
  commission : ℚ
  direction : String
  other_user : String
deriving DecidableEq

/-- The committed database state the transfer reads and writes: the account
columns keyed by username, and the append-only transaction table. -/
structure DB where
  accounts : String → Option Account
  txns : List Txn

/-- The JSON body of a successful transfer response (src/main.py lines
380-389), minus the constant `status`/`currency` fields. -/
structure TransferResult where
  sent : ℚ
  commission : ℚ
  total_spent : ℚ
  new_balance : ℚ
  earned_points : ℤ
  new_level : String
deriving DecidableEq

/-- The distinguishable failure outcomes of `api_transfer`. -/
inductive TransferError where
  /-- `float(amount)` raised, or `amount <= 0` (src/main.py lines 330-336);
  the spec groups both as InvalidAmount. -/
  | invalidAmount
  /-- The authenticated sender's row is absent.  Unreachable through the
  handler (authentication resolved the row); in Python line 346 would raise. -/
  | senderMissing
  /-- Receiver lookup found nothing (src/main.py lines 342-344). -/
  | receiverNotFound
  /-- `sender.balance < total` (src/main.py lines 350-352), reporting the
  required total. -/
  | insufficientFunds (required : PyFloat)
  /-- A NaN amount passes validation and the balance check (IEEE comparisons
  with NaN are false), then `int(amount // 50)` at line 357 raises ValueError
  before `db.commit()`: the request aborts, committed state unchanged. -/
  | nanCrash
deriving DecidableEq

/-- Point update of a keyed map: the mutation of one ORM object's column,
observed through the map from usernames to account rows. -/
def updAccount (m : String → Option Account) (k : String)
    (f : Account → Account) : String → Option Account :=
  fun x => if x = k then (m k).map f else m x

/-- `api_transfer` (src/main.py lines 320-391).  `senderName` is the
authenticated user's username, `to_username` the raw `to_username` field
(`none` when absent), `amountRaw` the result of `float(amount)` (`none` when
the conversion raised `TypeError`/`ValueError`).  Returns the committed
post-state and the response. -/
def api_transfer (db : DB) (senderName : String) (to_username : Option String)
    (amountRaw : Option PyFloat) : DB × Except TransferError TransferResult :=
  match amountRaw with
  | none => (db, .error .invalidAmount)
  | some amount =>
    if pyLe0 amount then (db, .error .invalidAmount)
    else
      match db.accounts senderName with
      | none => (db, .error .senderMissing)
      | some sender =>
        match to_username with
        | none => (db, .error .receiverNotFound)
        | some recv =>
          match db.accounts recv with
          | none => (db, .error .receiverNotFound)
          | some _receiver =>
            let rate := commission_for_level sender.level
            match amount with
            | .fin a =>
              -- commission = round(amount * rate, 2); total = amount + commission
              let commission := pyRound2 (a * rate)
              let total := a + commission
              if sender.balance < total then
                (db, .error (.insufficientFunds (.fin total)))
              else
                -- sender.balance -= total; receiver.balance += amount
                -- (same object when sender and receiver coincide)
                let accounts1 := updAccount db.accounts senderName
                  fun u => { u with balance := u.balance - total }
                let accounts2 := updAccount accounts1 recv
                  fun u => { u with balance := u.balance + a }
                -- earned_points = int(amount // 50); sender.points += earned_points
                let earned : ℤ := ⌊a / 50⌋
                let accounts3 := updAccount accounts2 senderName
                  fun u => { u with points := u.points + earned }
                -- recalc_level(sender)
                let accounts4 := updAccount accounts3 senderName
                  fun u => { u with level := recalc_level u.points }
                let out_tx : Txn := ⟨senderName, a, commission, "outgoing", recv⟩
                let in_tx : Txn := ⟨recv, a, 0, "incoming", senderName⟩
                (⟨accounts4, db.txns ++ [out_tx, in_tx]⟩,
                 .ok ⟨a, commission, total,
                      ((accounts4 senderName).map Account.balance).getD 0,
                      earned,
                      ((accounts4 senderName).map Account.level).getD ""⟩)
            | .nan =>
              -- commission = round(nan*rate, 2) = nan, total = nan;
              -- `sender.balance < nan` is false so the guard passes, then
              -- `int(nan // 50)` raises ValueError before commit.
              (db, .error .nanCrash)
            | .inf =>
              -- commission = inf, total = inf; `sender.balance < inf` is true
              -- for the (finite) stored balance.
              (db, .error (.insufficientFunds .inf))
            | .ninf =>
              -- dead branch: `-inf <= 0` already failed validation above
              (db, .error .invalidAmount)

/-- `generate_card_number` (src/main.py lines 111-112); `r1`, `r2` are the two
`random.randint(1000, 9999)` draws. -/
def generate_card_number (r1 r2 : ℕ) : String :=
  "VY-" ++ toString r1 ++ "-" ++ toString r2

/-- The card-issuing step of `api_register` (src/main.py lines 213-215)
against the `cards.number` unique constraint (line 62): one generated number
is inserted with no retry; a collision makes the `db.commit()` raise
`IntegrityError` (the insert is rejected, existing rows untouched), otherwise
the number is appended to the card table. -/
def registerCard (existing : List String) (r1 r2 : ℕ) :
    Except Unit (List String) :=
  let n := generate_card_number r1 r2
  if n ∈ existing then .error () else .ok (existing ++ [n])

/-- The four account mutations of a successful transfer (src/main.py lines
354-359) as one map transformer: debit `a + c` from the sender, credit `a` to
the receiver, add the earned points to the sender, recompute the sender's
level from the already-updated points.  `api_transfer` performs exactly this
sequence inline; this named form keeps lemma statements readable. -/
def transferAccounts (m : String → Option Account) (s recv : String)
    (a c : ℚ) : String → Option Account :=
  updAccount (updAccount (updAccount (updAccount m s
    fun u => { u with balance := u.balance - (a + c) }) recv
    fun u => { u with balance := u.balance + a }) s
    fun u => { u with points := u.points + ⌊a / 50⌋ }) s
    fun u => { u with level := recalc_level u.points }

/-- A small concrete state for witnesses: two users fresh from registration
(balance `START_BALANCE`, zero points, level Silver), empty ledger. -/
def demoDB : DB :=
  ⟨fun x =>
    if x = "alice" then some ⟨START_BALANCE, 0, "Silver"⟩
    else if x = "bob" then some ⟨START_BALANCE, 0, "Silver"⟩
    else none,
   []⟩

/-! Helper lemmas: evaluation of the keyed-map updates, the closed form of a
successful run, inversion of a successful or failed run. -/

lemma updAccount_same (m : String → Option Account) (k : String)
    (f : Account → Account) : updAccount m k f k = (m k).map f := by
  simp [updAccount]

lemma updAccount_other (m : String → Option Account) (k x : String)
    (f : Account → Account) (hx : x ≠ k) : updAccount m k f x = m x := by
  simp [updAccount, hx]

lemma transferAccounts_sender_ne (m : String → Option Account) (s recv : String)
    (a c : ℚ) (su : Account) (hne : s ≠ recv) (hs : m s = some su) :
    transferAccounts m s recv a c s =
      some ⟨su.balance - (a + c), su.points + ⌊a / 50⌋,
            recalc_level (su.points + ⌊a / 50⌋)⟩ := by
  simp [transferAccounts, updAccount, hs, hne]

lemma transferAccounts_recv_ne (m : String → Option Account) (s recv : String)
    (a c : ℚ) (ru : Account) (hne : s ≠ recv) (hr : m recv = some ru) :
    transferAccounts m s recv a c recv =
      some ⟨ru.balance + a, ru.points, ru.level⟩ := by
  have hne' : recv ≠ s := fun h => hne h.symm
  simp [transferAccounts, updAccount, hr, hne']

lemma transferAccounts_self (m : String → Option Account) (s : String)
    (a c : ℚ) (su : Account) (hs : m s = some su) :
    transferAccounts m s s a c s =
      some ⟨su.balance - (a + c) + a, su.points + ⌊a / 50⌋,
            recalc_level (su.points + ⌊a / 50⌋)⟩ := by
  simp [transferAccounts, updAccount, hs]

lemma transferAccounts_frame (m : String → Option Account) (s recv x : String)
    (a c : ℚ) (hxs : x ≠ s) (hxr : x ≠ recv) :
    transferAccounts m s recv a c x = m x := by
  simp [transferAccounts, updAccount, hxs, hxr]

lemma api_transfer_run (db : DB) (s recv : String) (a : ℚ) (su ru : Account)
    (hs : db.accounts s = some su) (hr : db.accounts recv = some ru)
    (hpos : ¬ a ≤ 0)
    (hbal : ¬ su.balance < a + pyRound2 (a * commission_for_level su.level)) :
    api_transfer db s (some recv) (some (.fin a)) =
      (⟨transferAccounts db.accounts s recv a
          (pyRound2 (a * commission_for_level su.level)),
        db.txns ++
          [⟨s, a, pyRound2 (a * commission_for_level su.level), "outgoing", recv⟩,
           ⟨recv, a, 0, "incoming", s⟩]⟩,
       .ok ⟨a, pyRound2 (a * commission_for_level su.level),
            a + pyRound2 (a * commission_for_level su.level),
            ((transferAccounts db.accounts s recv a
                (pyRound2 (a * commission_for_level su.level)) s).map
              Account.balance).getD 0,
            ⌊a / 50⌋,
            ((transferAccounts db.accounts s recv a
                (pyRound2 (a * commission_for_level su.level)) s).map
              Account.level).getD ""⟩) := by
  simp [api_transfer, transferAccounts, pyLe0, hs, hr, hpos, hbal]

lemma api_transfer_ok_shape (db : DB) (s : String) (recvOpt : Option String)
    (raw : Option PyFloat) (r : TransferResult)
    (h : (api_transfer db s recvOpt raw).2 = .ok r) :
    ∃ recv a, recvOpt = some recv ∧ raw = some (.fin a) := by
  rcases raw with _ | amount
  · simp [api_transfer] at h
  · by_cases hle : pyLe0 amount
    · simp [api_transfer, hle] at h
    · rcases hsm : db.accounts s with _ | su
      · simp [api_transfer, hle, hsm] at h
      · rcases recvOpt with _ | recv
        · simp [api_transfer, hle, hsm] at h
        · rcases hrm : db.accounts recv with _ | ru
          · simp [api_transfer, hle, hsm, hrm] at h
          · rcases amount with a | _ | _ | _
            · exact ⟨recv, a, rfl, rfl⟩
            · simp [api_transfer, hle, hsm, hrm] at h
            · simp [api_transfer, hle, hsm, hrm] at h
            · simp [api_transfer, hle, hsm, hrm] at h

lemma api_transfer_ok_cond (db : DB) (s recv : String) (a : ℚ)
    (r : TransferResult)
    (h : (api_transfer db s (some recv) (some (.fin a))).2 = .ok r) :
    ∃ su ru, db.accounts s = some su ∧ db.accounts recv = some ru ∧
      0 < a ∧
      a + pyRound2 (a * commission_for_level su.level) ≤ su.balance ∧
      r.sent = a ∧
      r.commission = pyRound2 (a * commission_for_level su.level) ∧
      r.total_spent = a + r.commission ∧
      r.earned_points = ⌊a / 50⌋ := by
  by_cases hle : pyLe0 (PyFloat.fin a)
  · simp [api_transfer, hle] at h
  · rcases hsm : db.accounts s with _ | su
    · simp [api_transfer, hle, hsm] at h
    · rcases hrm : db.accounts recv with _ | ru
      · simp [api_transfer, hle, hsm, hrm] at h
      · by_cases hbal :
          su.balance < a + pyRound2 (a * commission_for_level su.level)
        · simp [api_transfer, hle, hsm, hrm, hbal] at h
        · have hpos : ¬ a ≤ 0 := by simpa [pyLe0] using hle
          have hrun := api_transfer_run db s recv a su ru hsm hrm hpos hbal
          rw [hrun] at h
          refine ⟨su, ru, rfl, rfl, lt_of_not_le hpos, not_lt.mp hbal,
            ?_, ?_, ?_, ?_⟩ <;>
            simp [← Except.ok.injEq .. |>.mp h]

lemma api_transfer_error_db (db : DB) (s : String) (recvOpt : Option String)
    (raw : Option PyFloat) (e : TransferError)
    (h : (api_transfer db s recvOpt raw).2 = .error e) :
    (api_transfer db s recvOpt raw).1 = db := by
  rcases raw with _ | amount
  · rfl
  · by_cases hle : pyLe0 amount
    · simp [api_transfer, hle]
    · rcases hsm : db.accounts s with _ | su
      · simp [api_transfer, hle, hsm]
      · rcases recvOpt with _ | recv
        · simp [api_transfer, hle, hsm]
        · rcases hrm : db.accounts recv with _ | ru
          · simp [api_transfer, hle, hsm, hrm]
          · rcases amount with a | _ | _ | _
            · by_cases hbal :
                su.balance < a + pyRound2 (a * commission_for_level su.level)
              · simp [api_transfer, hle, hsm, hrm, hbal]
              · have hrun := api_transfer_run db s recv a su ru hsm hrm
                  (by simpa [pyLe0] using hle) hbal
                rw [hrun] at h
                simp at h
            · simp [api_transfer, hle, hsm, hrm]
            · simp [api_transfer, hle, hsm, hrm]
            · simp [api_transfer, hle, hsm, hrm]

/-! Concrete evaluations on `demoDB`, shared by the witnesses below. -/

lemma silver_rate : commission_for_level "Silver" = 2 / 100 := by
  simp [commission_for_level, COMMISSION_SILVER]

lemma pyRound2_ten_silver : pyRound2 (10 * (2 / 100 : ℚ)) = 1 / 5 := by
  unfold pyRound2 roundHalfEven
  norm_num

lemma floor_ten_fifty : (⌊(10 : ℚ) / 50⌋ : ℤ) = 0 := by
  norm_num [Int.floor_eq_iff]

lemma demo_alice : demoDB.accounts "alice" = some ⟨20, 0, "Silver"⟩ := by
  simp [demoDB, START_BALANCE]

lemma demo_bob : demoDB.accounts "bob" = some ⟨20, 0, "Silver"⟩ := by
  simp [demoDB, START_BALANCE]

lemma demo_run :
    api_transfer demoDB "alice" (some "bob") (some (.fin 10)) =
      (⟨transferAccounts demoDB.accounts "alice" "bob" 10 (1 / 5),
        demoDB.txns ++
          [⟨"alice", 10, 1 / 5, "outgoing", "bob"⟩,
           ⟨"bob", 10, 0, "incoming", "alice"⟩]⟩,
       .ok ⟨10, 1 / 5, 51 / 5, 49 / 5, 0, "Silver"⟩) := by
  have h := api_transfer_run demoDB "alice" "bob" 10 ⟨20, 0, "Silver"⟩
    ⟨20, 0, "Silver"⟩ demo_alice demo_bob (by norm_num)
    (by show ¬ (20 : ℚ) < 10 + pyRound2 (10 * commission_for_level "Silver")
        rw [silver_rate, pyRound2_ten_silver]; norm_num)
  simp only [silver_rate, pyRound2_ten_silver] at h
  have hs := transferAccounts_sender_ne demoDB.accounts "alice" "bob" 10 (1 / 5)
    ⟨20, 0, "Silver"⟩ (by simp) demo_alice
  simp only [floor_ten_fifty] at hs
  rw [h, hs]
  norm_num [recalc_level]

lemma demo_ok :
    (api_transfer demoDB "alice" (some "bob") (some (.fin 10))).2 =
      .ok ⟨10, 1 / 5, 51 / 5, 49 / 5, 0, "Silver"⟩ := by
  rw [demo_run]

lemma demo_alice_post :
    (api_transfer demoDB "alice" (some "bob")
      (some (.fin 10))).1.accounts "alice" = some ⟨49 / 5, 0, "Silver"⟩ := by
  rw [demo_run]
  have hs := transferAccounts_sender_ne demoDB.accounts "alice" "bob" 10 (1 / 5)
    ⟨20, 0, "Silver"⟩ (by simp) demo_alice
  simp only [floor_ten_fifty] at hs
  show transferAccounts demoDB.accounts "alice" "bob" 10 (1 / 5) "alice" =
    some ⟨49 / 5, 0, "Silver"⟩
  rw [hs]
  norm_num [recalc_level]

/-- C1: for every successful transfer of a positive amount between a sender
and a distinct receiver, the sender's balance decreases by exactly
`amount + commission`, the receiver's balance increases by exactly `amount`,
and every other account is untouched — so the commission is credited to no
account. -/
theorem C1_transfer_conservation (db : DB) (s recv : String) (a : ℚ)
    (r : TransferResult) (hne : s ≠ recv)
    (h : (api_transfer db s (some recv) (some (.fin a))).2 = .ok r) :
    ∃ su ru su' ru',
      db.accounts s = some su ∧ db.accounts recv = some ru ∧
      (api_transfer db s (some recv) (some (.fin a))).1.accounts s = some su' ∧
      (api_transfer db s (some recv) (some (.fin a))).1.accounts recv =
        some ru' ∧
      0 < a ∧
      su'.balance = su.balance - (a + r.commission) ∧
      ru'.balance = ru.balance + a ∧
      (∀ x, x ≠ s → x ≠ recv →
        (api_transfer db s (some recv) (some (.fin a))).1.accounts x =
          db.accounts x) := by
  obtain ⟨su, ru, hsm, hrm, hpos, hbal, hsent, hcomm, htot, hearn⟩ :=
    api_transfer_ok_cond db s recv a r h
  have hrun := api_transfer_run db s recv a su ru hsm hrm
    (not_le.mpr hpos) (not_lt.mpr hbal)
  rw [hrun]
  refine ⟨su, ru, _, _, hsm, hrm,
    transferAccounts_sender_ne db.accounts s recv a _ su hne hsm,
    transferAccounts_recv_ne db.accounts s recv a _ ru hne hrm,
    hpos, ?_, ?_, ?_⟩
  · rw [hcomm]
  · rfl
  · intro x hxs hxr
    exact transferAccounts_frame db.accounts s recv x a _ hxs hxr

/-- Witness for C1 at the spec's concrete scenario: alice (balance 20,
level Silver) transfers 10 to bob. -/
theorem C1_witness :
    ∃ su ru su' ru',
      demoDB.accounts "alice" = some su ∧ demoDB.accounts "bob" = some ru ∧
      (api_transfer demoDB "alice" (some "bob")
        (some (.fin 10))).1.accounts "alice" = some su' ∧
      (api_transfer demoDB "alice" (some "bob")
        (some (.fin 10))).1.accounts "bob" = some ru' ∧
      (0 : ℚ) < 10 ∧
      su'.balance = su.balance -
        (10 + (TransferResult.mk 10 (1 / 5) (51 / 5) (49 / 5) 0
          "Silver").commission) ∧
      ru'.balance = ru.balance + 10 ∧
      (∀ x, x ≠ "alice" → x ≠ "bob" →
        (api_transfer demoDB "alice" (some "bob")
          (some (.fin 10))).1.accounts x = demoDB.accounts x) :=
  C1_transfer_conservation demoDB "alice" "bob" 10
    ⟨10, 1 / 5, 51 / 5, 49 / 5, 0, "Silver"⟩ (by simp) demo_ok

/-- C2: with a valid positive finite amount and both parties resolved, the
transfer fails with InsufficientFunds reporting `required = amount +
commission` — leaving the whole state unchanged — exactly when the sender's
balance is strictly below `amount + commission`; when the balance equals
`amount + commission` exactly, the transfer succeeds. -/
theorem C2_insufficient_funds_iff (db : DB) (s recv : String) (a : ℚ)
    (su ru : Account) (hs : db.accounts s = some su)
    (hr : db.accounts recv = some ru) (hpos : 0 < a) :
    (api_transfer db s (some recv) (some (.fin a)) =
        (db, .error (.insufficientFunds
          (.fin (a + pyRound2 (a * commission_for_level su.level))))) ↔
      su.balance < a + pyRound2 (a * commission_for_level su.level)) ∧
    (su.balance = a + pyRound2 (a * commission_for_level su.level) →
      ∃ r, (api_transfer db s (some recv) (some (.fin a))).2 = .ok r) := by
  constructor
  · constructor
    · intro h
      by_contra hbal
      have hrun := api_transfer_run db s recv a su ru hs hr
        (not_le.mpr hpos) hbal
      rw [hrun] at h
      simp at h
    · intro hlt
      simp [api_transfer, pyLe0, hs, hr, not_le.mpr hpos, hlt]
  · intro heq
    have hbal : ¬ su.balance <
        a + pyRound2 (a * commission_for_level su.level) := by
      rw [heq]
      exact lt_irrefl _
    refine ⟨⟨a, pyRound2 (a * commission_for_level su.level),
      a + pyRound2 (a * commission_for_level su.level),
      ((transferAccounts db.accounts s recv a
          (pyRound2 (a * commission_for_level su.level)) s).map
        Account.balance).getD 0,
      ⌊a / 50⌋,
      ((transferAccounts db.accounts s recv a
          (pyRound2 (a * commission_for_level su.level)) s).map
        Account.level).getD ""⟩, ?_⟩
    rw [api_transfer_run db s recv a su ru hs hr (not_le.mpr hpos) hbal]

/-- Witness for C2: alice (balance 20) attempting to send 100 to bob. -/
theorem C2_witness :
    ((api_transfer demoDB "alice" (some "bob") (some (.fin 100)) =
        (demoDB, .error (.insufficientFunds (.fin (100 +
          pyRound2 (100 * commission_for_level
            (Account.mk 20 0 "Silver").level)))))) ↔
      (Account.mk 20 0 "Silver").balance < 100 +
        pyRound2 (100 * commission_for_level
          (Account.mk 20 0 "Silver").level)) ∧
    ((Account.mk 20 0 "Silver").balance = 100 +
        pyRound2 (100 * commission_for_level
          (Account.mk 20 0 "Silver").level) →
      ∃ r, (api_transfer demoDB "alice" (some "bob")
        (some (.fin 100))).2 = .ok r) :=
  C2_insufficient_funds_iff demoDB "alice" "bob" 100 ⟨20, 0, "Silver"⟩
    ⟨20, 0, "Silver"⟩ demo_alice demo_bob (by norm_num)

/-- C3 (amended): an amount that fails `float(...)` conversion, or converts
to a value `<= 0` (zero, negatives, `-inf`), is rejected as InvalidAmount
with the state untouched.  A NaN amount, however, passes validation and
aborts with an unhandled error before commit (state untouched), and a `+inf`
amount fails with InsufficientFunds rather than InvalidAmount. -/
theorem C3_invalid_amount_amended (db : DB) (s : String)
    (recvOpt : Option String) :
    api_transfer db s recvOpt none = (db, .error .invalidAmount) ∧
    (∀ q : ℚ, q ≤ 0 →
      api_transfer db s recvOpt (some (.fin q)) =
        (db, .error .invalidAmount)) ∧
    api_transfer db s recvOpt (some .ninf) = (db, .error .invalidAmount) ∧
    (∀ recv su ru, recvOpt = some recv → db.accounts s = some su →
      db.accounts recv = some ru →
      api_transfer db s recvOpt (some .nan) = (db, .error .nanCrash) ∧
      api_transfer db s recvOpt (some .inf) =
        (db, .error (.insufficientFunds .inf))) := by
  refine ⟨rfl, fun q hq => ?_, ?_, fun recv su ru hro hs hr => ?_⟩
  · simp [api_transfer, pyLe0, hq]
  · simp [api_transfer, pyLe0]
  · subst hro
    constructor
    · simp [api_transfer, pyLe0, hs, hr]
    · simp [api_transfer, pyLe0, hs, hr]

/-- Witness for C3 (amended) at concrete inputs: a missing/unparseable
amount, the amount 0, and a NaN amount. -/
theorem C3_witness :
    api_transfer demoDB "alice" (some "bob") none =
      (demoDB, .error .invalidAmount) ∧
    api_transfer demoDB "alice" (some "bob") (some (.fin 0)) =
      (demoDB, .error .invalidAmount) ∧
    api_transfer demoDB "alice" (some "bob") (some .nan) =
      (demoDB, .error .nanCrash) := by
  obtain ⟨h1, h2, h3, h4⟩ := C3_invalid_amount_amended demoDB "alice" (some "bob")
  exact ⟨h1, h2 0 le_rfl,
    (h4 "bob" ⟨20, 0, "Silver"⟩ ⟨20, 0, "Silver"⟩ rfl demo_alice demo_bob).1⟩

/-- Counterexample to C3 as stated: the non-finite amounts `+inf` and NaN do
NOT fail with InvalidAmount — `+inf` yields InsufficientFunds and NaN yields
an unhandled crash. -/
theorem C3_counterexample :
    (api_transfer demoDB "alice" (some "bob") (some .inf)).2 =
      .error (.insufficientFunds .inf) ∧
    ¬ (api_transfer demoDB "alice" (some "bob") (some .inf)).2 =
      .error .invalidAmount ∧
    (api_transfer demoDB "alice" (some "bob") (some .nan)).2 =
      .error .nanCrash ∧
    ¬ (api_transfer demoDB "alice" (some "bob") (some .nan)).2 =
      .error .invalidAmount := by
  have h1 : api_transfer demoDB "alice" (some "bob") (some .inf) =
      (demoDB, .error (.insufficientFunds .inf)) := by
    simp [api_transfer, pyLe0, demo_alice, demo_bob]
  have h2 : api_transfer demoDB "alice" (some "bob") (some .nan) =
      (demoDB, .error .nanCrash) := by
    simp [api_transfer, pyLe0, demo_alice, demo_bob]
  rw [h1, h2]
  refine ⟨rfl, by simp, rfl, by simp⟩

/-- C4: the tier map and the commission-rate map are total pure functions
with the stated thresholds and rates; every point total below 200 (any
negative value included) maps to Silver (the spec's Base). -/
theorem C4_tier_policy (p : ℤ) :
    (1000 ≤ p → recalc_level p = "Platinum") ∧
    (200 ≤ p → p < 1000 → recalc_level p = "Gold") ∧
    (p < 200 → recalc_level p = "Silver") ∧
    commission_for_level "Silver" = 2 / 100 ∧
    commission_for_level "Gold" = 15 / 1000 ∧
    commission_for_level "Platinum" = 1 / 100 := by
  refine ⟨fun h => ?_, fun h1 h2 => ?_, fun h => ?_, ?_, ?_, ?_⟩
  · simp [recalc_level, h]
  · have hn : ¬ p ≥ 1000 := by omega
    simp [recalc_level, hn, h1]
  · have hn : ¬ p ≥ 1000 := by omega
    have hn2 : ¬ p ≥ 200 := by omega
    simp [recalc_level, hn, hn2]
  · simp [commission_for_level, COMMISSION_SILVER]
  · simp [commission_for_level, COMMISSION_GOLD]
  · simp [commission_for_level, COMMISSION_PLATINUM]

/-- Witness for C4 at the tier boundaries and a negative point total. -/
theorem C4_witness :
    recalc_level 1000 = "Platinum" ∧ recalc_level 200 = "Gold" ∧
    recalc_level (-5) = "Silver" :=
  ⟨(C4_tier_policy 1000).1 (by norm_num),
   (C4_tier_policy 200).2.1 (by norm_num) (by norm_num),
   (C4_tier_policy (-5)).2.2.1 (by norm_num)⟩

/-- C5: the commission of a successful transfer equals
`round(amount * rate(sender tier), 2)`, the total debited equals
`amount + commission`, and the sender's stored balance drops by that total. -/
theorem C5_commission_rounding (db : DB) (s recv : String) (a : ℚ)
    (r : TransferResult) (hne : s ≠ recv)
    (h : (api_transfer db s (some recv) (some (.fin a))).2 = .ok r) :
    ∃ su su',
      db.accounts s = some su ∧
      (api_transfer db s (some recv) (some (.fin a))).1.accounts s = some su' ∧
      r.commission = pyRound2 (a * commission_for_level su.level) ∧
      r.total_spent = a + r.commission ∧
      su'.balance = su.balance - r.total_spent := by
  obtain ⟨su, ru, hsm, hrm, hpos, hbal, hsent, hcomm, htot, hearn⟩ :=
    api_transfer_ok_cond db s recv a r h
  have hrun := api_transfer_run db s recv a su ru hsm hrm
    (not_le.mpr hpos) (not_lt.mpr hbal)
  rw [hrun]
  refine ⟨su, _, hsm,
    transferAccounts_sender_ne db.accounts s recv a _ su hne hsm,
    hcomm, htot, ?_⟩
  rw [htot, hcomm]

/-- Witness for C5 at the spec's scenario: a Base-tier sender with balance 20
transfers 10; the commission is exactly 1/5 = 0.20 and the resulting stored
balance is exactly 49/5 = 9.80. -/
theorem C5_witness :
    (∃ su su',
      demoDB.accounts "alice" = some su ∧
      (api_transfer demoDB "alice" (some "bob")
        (some (.fin 10))).1.accounts "alice" = some su' ∧
      (1 / 5 : ℚ) = pyRound2 (10 * commission_for_level su.level) ∧
      (51 / 5 : ℚ) = 10 + 1 / 5 ∧
      su'.balance = su.balance - 51 / 5) ∧
    (api_transfer demoDB "alice" (some "bob")
      (some (.fin 10))).1.accounts "alice" = some ⟨49 / 5, 0, "Silver"⟩ :=
  ⟨C5_commission_rounding demoDB "alice" "bob" 10
    ⟨10, 1 / 5, 51 / 5, 49 / 5, 0, "Silver"⟩ (by simp) demo_ok,
   demo_alice_post⟩

/-- C6: after a successful transfer the sender's points grow by exactly
`floor(amount / 50)` (face amount, commission excluded), the stored level is
the tier function of the updated points, and a distinct receiver's points are
unchanged. -/
theorem C6_points_tier (db : DB) (s recv : String) (a : ℚ)
    (r : TransferResult)
    (h : (api_transfer db s (some recv) (some (.fin a))).2 = .ok r) :
    ∃ su su',
      db.accounts s = some su ∧
      (api_transfer db s (some recv) (some (.fin a))).1.accounts s = some su' ∧
      su'.points = su.points + ⌊a / 50⌋ ∧
      r.earned_points = ⌊a / 50⌋ ∧
      su'.level = recalc_level su'.points ∧
      (s ≠ recv → ∃ ru ru', db.accounts recv = some ru ∧
        (api_transfer db s (some recv) (some (.fin a))).1.accounts recv =
          some ru' ∧
        ru'.points = ru.points) := by
  obtain ⟨su, ru, hsm, hrm, hpos, hbal, hsent, hcomm, htot, hearn⟩ :=
    api_transfer_ok_cond db s recv a r h
  have hrun := api_transfer_run db s recv a su ru hsm hrm
    (not_le.mpr hpos) (not_lt.mpr hbal)
  rw [hrun]
  by_cases hne : s = recv
  · subst hne
    refine ⟨su, _, hsm, transferAccounts_self db.accounts s a _ su hsm,
      rfl, hearn, rfl, fun hcon => absurd rfl hcon⟩
  · refine ⟨su, _, hsm,
      transferAccounts_sender_ne db.accounts s recv a _ su hne hsm,
      rfl, hearn, rfl, fun _ => ⟨ru, _, hrm,
        transferAccounts_recv_ne db.accounts s recv a _ ru hne hrm, rfl⟩⟩

/-- Witness for C6: alice transfers 10 to bob, earning `floor(10/50) = 0`
points; bob's points are untouched. -/
theorem C6_witness :
    ∃ su su',
      demoDB.accounts "alice" = some su ∧
      (api_transfer demoDB "alice" (some "bob")
        (some (.fin 10))).1.accounts "alice" = some su' ∧
      su'.points = su.points + ⌊(10 : ℚ) / 50⌋ ∧
      (⟨10, 1 / 5, 51 / 5, 49 / 5, 0, "Silver"⟩ :
        TransferResult).earned_points = ⌊(10 : ℚ) / 50⌋ ∧
      su'.level = recalc_level su'.points ∧
      ("alice" ≠ "bob" → ∃ ru ru', demoDB.accounts "bob" = some ru ∧
        (api_transfer demoDB "alice" (some "bob")
          (some (.fin 10))).1.accounts "bob" = some ru' ∧
        ru'.points = ru.points) :=
  C6_points_tier demoDB "alice" "bob" 10
    ⟨10, 1 / 5, 51 / 5, 49 / 5, 0, "Silver"⟩ demo_ok

/-- C7: every successful transfer appends exactly the paired
outgoing/incoming ledger rows — equal amounts, commission only on the
outgoing side, counterparty identities swapped — and every failed transfer
appends nothing. -/
theorem C7_ledger_pairing (db : DB) (s : String) (recvOpt : Option String)
    (raw : Option PyFloat) :
    (∀ e, (api_transfer db s recvOpt raw).2 = .error e →
      (api_transfer db s recvOpt raw).1.txns = db.txns) ∧
    (∀ r, (api_transfer db s recvOpt raw).2 = .ok r →
      ∃ recv a, recvOpt = some recv ∧ raw = some (.fin a) ∧ r.sent = a ∧
        (api_transfer db s recvOpt raw).1.txns =
          db.txns ++ [⟨s, a, r.commission, "outgoing", recv⟩,
                      ⟨recv, a, 0, "incoming", s⟩]) := by
  constructor
  · intro e he
    rw [api_transfer_error_db db s recvOpt raw e he]
  · intro r hok
    obtain ⟨recv, a, hro, hra⟩ := api_transfer_ok_shape db s recvOpt raw r hok
    subst hro
    subst hra
    obtain ⟨su, ru, hsm, hrm, hpos, hbal, hsent, hcomm, htot, hearn⟩ :=
      api_transfer_ok_cond db s recv a r hok
    have hrun := api_transfer_run db s recv a su ru hsm hrm
      (not_le.mpr hpos) (not_lt.mpr hbal)
    rw [hrun]
    exact ⟨recv, a, rfl, rfl, hsent, by rw [hcomm]⟩

/-- Witness for C7: the successful alice-to-bob transfer appends its two
paired rows; a failed transfer (unparseable amount) appends nothing. -/
theorem C7_witness :
    (∃ recv a, (some "bob" : Option String) = some recv ∧
      (some (PyFloat.fin 10) : Option PyFloat) = some (.fin a) ∧
      (⟨10, 1 / 5, 51 / 5, 49 / 5, 0, "Silver"⟩ : TransferResult).sent = a ∧
      (api_transfer demoDB "alice" (some "bob") (some (.fin 10))).1.txns =
        demoDB.txns ++
          [⟨"alice", a, (⟨10, 1 / 5, 51 / 5, 49 / 5, 0, "Silver"⟩ :
              TransferResult).commission, "outgoing", recv⟩,
           ⟨recv, a, 0, "incoming", "alice"⟩]) ∧
    (api_transfer demoDB "alice" (some "bob") none).1.txns = demoDB.txns :=
  ⟨(C7_ledger_pairing demoDB "alice" (some "bob") (some (.fin 10))).2 _ demo_ok,
   (C7_ledger_pairing demoDB "alice" (some "bob") none).1 .invalidAmount rfl⟩

/-- C8: a self-transfer is not rejected — with a valid amount and sufficient
balance it succeeds, the single account's balance changes by exactly
`-commission`, points and level are updated as for any transfer, every other
account is untouched, and the paired ledger rows are recorded. -/
theorem C8_self_transfer (db : DB) (s : String) (a : ℚ) (su : Account)
    (hs : db.accounts s = some su) (hpos : 0 < a)
    (hbal : a + pyRound2 (a * commission_for_level su.level) ≤ su.balance) :
    ∃ r su',
      (api_transfer db s (some s) (some (.fin a))).2 = .ok r ∧
      r.commission = pyRound2 (a * commission_for_level su.level) ∧
      (api_transfer db s (some s) (some (.fin a))).1.accounts s = some su' ∧
      su'.balance = su.balance - r.commission ∧
      su'.points = su.points + ⌊a / 50⌋ ∧
      su'.level = recalc_level su'.points ∧
      (∀ x, x ≠ s →
        (api_transfer db s (some s) (some (.fin a))).1.accounts x =
          db.accounts x) ∧
      (api_transfer db s (some s) (some (.fin a))).1.txns =
        db.txns ++ [⟨s, a, r.commission, "outgoing", s⟩,
                    ⟨s, a, 0, "incoming", s⟩] := by
  have hrun := api_transfer_run db s s a su su hs hs
    (not_le.mpr hpos) (not_lt.mpr hbal)
  rw [hrun]
  refine ⟨_, _, rfl, rfl, transferAccounts_self db.accounts s a _ su hs,
    ?_, rfl, rfl,
    fun x hx => transferAccounts_frame db.accounts s s x a _ hx hx, rfl⟩
  show su.balance - (a + pyRound2 (a * commission_for_level su.level)) + a =
    su.balance - pyRound2 (a * commission_for_level su.level)
  ring

/-- Witness for C8: alice transfers 10 to herself; the net balance change is
exactly minus the commission. -/
theorem C8_witness :
    ∃ r su',
      (api_transfer demoDB "alice" (some "alice") (some (.fin 10))).2 =
        .ok r ∧
      r.commission = pyRound2 (10 * commission_for_level
        (Account.mk 20 0 "Silver").level) ∧
      (api_transfer demoDB "alice" (some "alice")
        (some (.fin 10))).1.accounts "alice" = some su' ∧
      su'.balance = (Account.mk 20 0 "Silver").balance - r.commission ∧
      su'.points = (Account.mk 20 0 "Silver").points + ⌊(10 : ℚ) / 50⌋ ∧
      su'.level = recalc_level su'.points ∧
      (∀ x, x ≠ "alice" →
        (api_transfer demoDB "alice" (some "alice")
          (some (.fin 10))).1.accounts x = demoDB.accounts x) ∧
      (api_transfer demoDB "alice" (some "alice") (some (.fin 10))).1.txns =
        demoDB.txns ++ [⟨"alice", 10, r.commission, "outgoing", "alice"⟩,
                        ⟨"alice", 10, 0, "incoming", "alice"⟩] :=
  C8_self_transfer demoDB "alice" 10 ⟨20, 0, "Silver"⟩ demo_alice (by norm_num)
    (by show (10 : ℚ) + pyRound2 (10 * commission_for_level "Silver") ≤ 20
        rw [silver_rate, pyRound2_ten_silver]; norm_num)

/-- C9 (amended): registration inserts one generated card number with no
retry loop: a collision with an existing number makes the insert fail under
the unique constraint (existing rows untouched), and absent a collision the
new card's number differs from every existing card's number. -/
theorem C9_card_unique_amended (existing : List String) (r1 r2 : ℕ) :
    (generate_card_number r1 r2 ∈ existing →
      registerCard existing r1 r2 = .error ()) ∧
    (generate_card_number r1 r2 ∉ existing →
      registerCard existing r1 r2 =
        .ok (existing ++ [generate_card_number r1 r2]) ∧
      ∀ c ∈ existing, c ≠ generate_card_number r1 r2) := by
  constructor
  · intro h
    simp [registerCard, h]
  · intro h
    refine ⟨by simp [registerCard, h], fun c hc he => h (he ▸ hc)⟩

/-- Witness for C9 (amended): a colliding draw fails the insert; a fresh draw
is appended. -/
theorem C9_witness :
    registerCard ["VY-1000-1000"] 1000 1000 = .error () ∧
    registerCard ["VY-1000-1000"] 1000 1001 =
      .ok (["VY-1000-1000"] ++ [generate_card_number 1000 1001]) :=
  ⟨(C9_card_unique_amended ["VY-1000-1000"] 1000 1000).1 (by decide),
   ((C9_card_unique_amended ["VY-1000-1000"] 1000 1001).2 (by decide)).1⟩

/-- Counterexample to C9 as stated: on a card-number collision the insert
simply fails — there is no generate-check-retry loop. -/
theorem C9_counterexample :
    registerCard ["VY-1000-1000"] 1000 1000 = .error () := by
  rfl

end Vysh
